import Mathlib

/-!
Verification of the block/lot splitting logic of
`separate_block_and_lot.py` (Baltimore City block-lot parsing).

The Python function `split_block_lot` takes a string and returns a pair
`[block, lot]`. A Python string is modelled as a Lean `String` (a list of
characters); Python slicing `s[:n]` / `s[n:]` becomes `List.take` /
`List.drop` on the character list (slicing never raises), while the single
character access `s[4]` raises `IndexError` when the string is shorter
than 5 characters — modelled with `Except PyError`. `str.isalpha` on a
single character is modelled by `Char.isAlpha`.
-/

/-- The kinds of Python runtime errors the modelled code can raise. -/
inductive PyError where
  | IndexError : PyError
  deriving DecidableEq, Repr

instance decEqExcept {ε α : Type} [DecidableEq ε] [DecidableEq α] :
    DecidableEq (Except ε α) := fun a b =>
  match a, b with
  | .ok x, .ok y =>
    if h : x = y then .isTrue (by rw [h]) else .isFalse (by simp [h])
  | .error x, .error y =>
    if h : x = y then .isTrue (by rw [h]) else .isFalse (by simp [h])
  | .ok _, .error _ => .isFalse (by simp)
  | .error _, .ok _ => .isFalse (by simp)

/-- Embedding of `split_block_lot` from `separate_block_and_lot.py`:

```
def split_block_lot(blocklot):
    if len(blocklot) == 6:
        return [blocklot[:3], blocklot[3:]]
    elif blocklot[4].isalpha():
        return [blocklot[:5], blocklot[5:]]
    else:
        return [blocklot[:4], blocklot[4:]]
```

`blocklot[4]` raises `IndexError` when the length is below 5; that is the
`Except.error` branch. -/
def split_block_lot (blocklot : String) : Except PyError (String × String) :=
  if blocklot.length = 6 then
    .ok (⟨blocklot.data.take 3⟩, ⟨blocklot.data.drop 3⟩)
  else
    match blocklot.data[4]? with
    | none => .error .IndexError
    | some c =>
      if c.isAlpha then
        .ok (⟨blocklot.data.take 5⟩, ⟨blocklot.data.drop 5⟩)
      else
        .ok (⟨blocklot.data.take 4⟩, ⟨blocklot.data.drop 4⟩)

/-- Modelled from the spec: the repository's alternate two-function variant
is described in the spec ("block is computed by the same 3-rule logic as
above") but its source file is missing from `src/`. `get_block_code`
computes only the block, by the same rules as `split_block_lot`. -/
def get_block_code (blocklot : String) : Except PyError String :=
  if blocklot.length = 6 then
    .ok ⟨blocklot.data.take 3⟩
  else
    match blocklot.data[4]? with
    | none => .error .IndexError
    | some c =>
      if c.isAlpha then .ok ⟨blocklot.data.take 5⟩
      else .ok ⟨blocklot.data.take 4⟩

/-- Modelled from the spec: the alternate variant computes the lot
independently — "if the last character is alphabetic, lot = last 4
characters, else lot = last 3 characters". Its source file is missing from
`src/`. Inspecting the last character of an empty string raises
`IndexError`. -/
def get_lot_code (blocklot : String) : Except PyError String :=
  match blocklot.data.getLast? with
  | none => .error .IndexError
  | some c =>
    if c.isAlpha then .ok ⟨blocklot.data.drop (blocklot.length - 4)⟩
    else .ok ⟨blocklot.data.drop (blocklot.length - 3)⟩

/-- The length of a string built from a character list is the list's
length. -/
theorem mk_length (l : List Char) : (⟨l⟩ : String).length = l.length := rfl

/-- Reassembling the two halves of a cut character list gives back the
original string. -/
theorem mk_take_append_drop (s : String) (n : Nat) :
    (⟨s.data.take n⟩ : String) ++ (⟨s.data.drop n⟩ : String) = s := by
  apply String.ext
  show s.data.take n ++ s.data.drop n = s.data
  exact s.data.take_append_drop n

/-- Reading index 4 successfully means the list has at least 5 elements. -/
theorem four_lt_of_getElem4 {l : List Char} {c : Char} (h : l[4]? = some c) :
    4 < l.length := by
  by_contra hc
  rw [List.getElem?_eq_none (by omega)] at h
  cases h

/-- On inputs of length other than 6 that are long enough to index, the
split is decided by whether the character at index 4 is alphabetic. -/
theorem split_block_lot_cases (s : String) (h6 : ¬ s.length = 6)
    (h4 : 4 < s.data.length) :
    split_block_lot s =
      if s.data[4].isAlpha then .ok (⟨s.data.take 5⟩, ⟨s.data.drop 5⟩)
      else .ok (⟨s.data.take 4⟩, ⟨s.data.drop 4⟩) := by
  unfold split_block_lot
  rw [if_neg h6, List.getElem?_eq_getElem h4]

/-- C1: whenever `split_block_lot` returns a pair `(b, l)`, concatenating
the block and the lot reconstructs the input exactly: the split is a
partition of the input with no characters dropped, added, or changed. -/
theorem split_block_lot_partition (s b l : String)
    (h : split_block_lot s = .ok (b, l)) : b ++ l = s := by
  unfold split_block_lot at h
  split at h
  · simp only [Except.ok.injEq, Prod.mk.injEq] at h
    obtain ⟨hb, hl⟩ := h
    subst hb hl
    exact mk_take_append_drop s 3
  · split at h
    · exact Except.noConfusion h
    · split at h
      · simp only [Except.ok.injEq, Prod.mk.injEq] at h
        obtain ⟨hb, hl⟩ := h
        subst hb hl
        exact mk_take_append_drop s 5
      · simp only [Except.ok.injEq, Prod.mk.injEq] at h
        obtain ⟨hb, hl⟩ := h
        subst hb hl
        exact mk_take_append_drop s 4

/-- Witness for C1 at the concrete input "123456". -/
theorem split_block_lot_partition_witness : "123" ++ "456" = "123456" :=
  split_block_lot_partition "123456" "123" "456" rfl

/-- C2: on any string of length exactly 6, `split_block_lot` cuts at
position 3 and returns the first 3 characters paired with the last 3,
regardless of the character at index 4 (the length-6 rule is checked
first and wins). -/
theorem split_block_lot_length_six (s : String) (h : s.length = 6) :
    split_block_lot s = .ok (⟨s.data.take 3⟩, ⟨s.data.drop 3⟩) := by
  unfold split_block_lot
  rw [if_pos h]

/-- Witness for C2: `split_block_lot "123456" = ("123", "456")`. -/
theorem split_block_lot_length_six_witness :
    split_block_lot "123456" = .ok ("123", "456") := by
  have h := split_block_lot_length_six "123456" rfl
  exact h

/-- C3: on any string of length not 6 and at least 5 whose character at
index 4 is alphabetic, `split_block_lot` cuts at position 5, returning the
first 5 characters paired with the remainder. -/
theorem split_block_lot_alpha_cut_five (s : String) (h6 : ¬ s.length = 6)
    (h5 : 5 ≤ s.length) (hA : (s.data.getD 4 ' ').isAlpha = true) :
    split_block_lot s = .ok (⟨s.data.take 5⟩, ⟨s.data.drop 5⟩) := by
  have h4 : 4 < s.data.length := h5
  have hA2 : s.data[4].isAlpha = true := by
    rwa [List.getD_eq_getElem s.data ' ' h4] at hA
  rw [split_block_lot_cases s h6 h4, if_pos hA2]

/-- Witness for C3: `split_block_lot "1234A67" = ("1234A", "67")`. -/
theorem split_block_lot_alpha_cut_five_witness :
    split_block_lot "1234A67" = .ok ("1234A", "67") := by
  have h := split_block_lot_alpha_cut_five "1234A67" (by decide) (by decide)
    (by decide)
  exact h

/-- C4: on any string of length not 6 and at least 5 whose character at
index 4 is not alphabetic, `split_block_lot` cuts at position 4, returning
the first 4 characters paired with the remainder. -/
theorem split_block_lot_default_cut_four (s : String) (h6 : ¬ s.length = 6)
    (h5 : 5 ≤ s.length) (hA : (s.data.getD 4 ' ').isAlpha = false) :
    split_block_lot s = .ok (⟨s.data.take 4⟩, ⟨s.data.drop 4⟩) := by
  have h4 : 4 < s.data.length := h5
  have hA2 : s.data[4].isAlpha = false := by
    rwa [List.getD_eq_getElem s.data ' ' h4] at hA
  rw [split_block_lot_cases s h6 h4, if_neg (by simp [hA2])]

/-- Witness for C4: `split_block_lot "12345678" = ("1234", "5678")`. -/
theorem split_block_lot_default_cut_four_witness :
    split_block_lot "12345678" = .ok ("1234", "5678") := by
  have h := split_block_lot_default_cut_four "12345678" (by decide) (by decide)
    (by decide)
  exact h

/-- C5: on any string of length below 5 (hence also not 6), reading index 4
is out of range, so `split_block_lot` fails with an IndexError and returns
no split. -/
theorem split_block_lot_short_fails (s : String) (h : s.length < 5) :
    split_block_lot s = .error .IndexError := by
  have hd : s.data.length < 5 := h
  unfold split_block_lot
  rw [if_neg (by omega : ¬ s.length = 6),
    List.getElem?_eq_none (by omega : s.data.length ≤ 4)]

/-- Witness for C5 at the concrete length-4 input "1234". -/
theorem split_block_lot_short_fails_witness :
    split_block_lot "1234" = .error .IndexError :=
  split_block_lot_short_fails "1234" (by decide)

/-- C6: on a string of length exactly 5 whose character at index 4 is not
alphabetic, `split_block_lot` applies the default rule (cut at 4) and
returns a 4-character block together with a 1-character lot, raising no
error. -/
theorem split_block_lot_len_five_nonalpha (s : String) (h5 : s.length = 5)
    (hA : (s.data.getD 4 ' ').isAlpha = false) :
    split_block_lot s = .ok (⟨s.data.take 4⟩, ⟨s.data.drop 4⟩) ∧
    (⟨s.data.take 4⟩ : String).length = 4 ∧
    (⟨s.data.drop 4⟩ : String).length = 1 := by
  have hd : s.data.length = 5 := h5
  refine ⟨split_block_lot_default_cut_four s (by omega) (by omega) hA, ?_, ?_⟩
  · rw [mk_length, List.length_take]
    omega
  · rw [mk_length, List.length_drop]
    omega

/-- Witness for C6 at the concrete input "12345". -/
theorem split_block_lot_len_five_nonalpha_witness :
    split_block_lot "12345" = .ok ("1234", "5") ∧
    ("1234" : String).length = 4 ∧ ("5" : String).length = 1 := by
  have h := split_block_lot_len_five_nonalpha "12345" (by decide) (by decide)
  exact h

/-- C7 (spec-modelled variant): on the 7-character input "123456A", whose
last character is alphabetic but whose character at index 4 is not, the
two-function variant (`get_block_code` + `get_lot_code`) produces a lot of
"456A" while `split_block_lot` produces the lot "56A": the two variants
disagree. -/
theorem two_function_variant_disagrees :
    "123456A".length = 7 ∧
    "123456A".data.getLast?.map Char.isAlpha = some true ∧
    ("123456A".data[4]?).map Char.isAlpha = some false ∧
    split_block_lot "123456A" = .ok ("1234", "56A") ∧
    get_block_code "123456A" = .ok "1234" ∧
    get_lot_code "123456A" = .ok "456A" ∧
    get_lot_code "123456A" ≠ (split_block_lot "123456A").map Prod.snd := by
  refine ⟨rfl, rfl, rfl, rfl, rfl, rfl, ?_⟩
  decide

/-- C8: `split_block_lot` is deterministic — any two calls on equal inputs
return equal results. (It is a pure function of its argument by
construction of the embedding: its result depends on nothing else.) -/
theorem split_block_lot_deterministic (s t : String) (h : s = t) :
    split_block_lot s = split_block_lot t := by
  rw [h]

/-- Witness for C8 at the concrete input "123456". -/
theorem split_block_lot_deterministic_witness :
    split_block_lot "123456" = split_block_lot "123456" :=
  split_block_lot_deterministic "123456" "123456" rfl

/-- C9: on a string of length exactly 5 whose character at index 4 is
alphabetic, `split_block_lot` succeeds silently, returning the entire
input as the block and the empty string as the lot. -/
theorem split_block_lot_len_five_alpha (s : String) (h5 : s.length = 5)
    (hA : (s.data.getD 4 ' ').isAlpha = true) :
    split_block_lot s = .ok (s, "") := by
  have hd : s.data.length = 5 := h5
  have h4 : 4 < s.data.length := by omega
  have hA2 : s.data[4].isAlpha = true := by
    rwa [List.getD_eq_getElem s.data ' ' h4] at hA
  rw [split_block_lot_cases s (by omega) h4, if_pos hA2,
    List.take_of_length_le (by omega : s.data.length ≤ 5),
    List.drop_eq_nil_of_le (by omega : s.data.length ≤ 5)]

/-- Witness for C9 at the concrete input "1234A". -/
theorem split_block_lot_len_five_alpha_witness :
    split_block_lot "1234A" = .ok ("1234A", "") :=
  split_block_lot_len_five_alpha "1234A" (by decide) (by decide)

/-- C10: whenever `split_block_lot` returns `(b, l)`, the block has length
3, 4, or 5 — length 3 exactly when the input has length 6 — and the lot
has length equal to the input length minus the block length. -/
theorem split_block_lot_block_lengths (s b l : String)
    (h : split_block_lot s = .ok (b, l)) :
    (b.length = 3 ∨ b.length = 4 ∨ b.length = 5) ∧
    (b.length = 3 ↔ s.length = 6) ∧
    l.length = s.length - b.length := by
  have hs : s.length = s.data.length := rfl
  unfold split_block_lot at h
  split at h
  · next h6 =>
    simp only [Except.ok.injEq, Prod.mk.injEq] at h
    obtain ⟨hb, hl⟩ := h
    subst hb hl
    have hd : s.data.length = 6 := h6
    simp only [mk_length, List.length_take, List.length_drop]
    omega
  · next h6 =>
    split at h
    · exact Except.noConfusion h
    · next c hc =>
      have h4 : 4 < s.data.length := four_lt_of_getElem4 hc
      rw [hs] at h6
      split at h
      · simp only [Except.ok.injEq, Prod.mk.injEq] at h
        obtain ⟨hb, hl⟩ := h
        subst hb hl
        simp only [mk_length, List.length_take, List.length_drop]
        omega
      · simp only [Except.ok.injEq, Prod.mk.injEq] at h
        obtain ⟨hb, hl⟩ := h
        subst hb hl
        simp only [mk_length, List.length_take, List.length_drop]
        omega

/-- Witness for C10 at the concrete input "12345678". -/
theorem split_block_lot_block_lengths_witness :
    ((("1234" : String).length = 3 ∨ ("1234" : String).length = 4 ∨
      ("1234" : String).length = 5) ∧
    (("1234" : String).length = 3 ↔ ("12345678" : String).length = 6) ∧
    ("5678" : String).length =
      ("12345678" : String).length - ("1234" : String).length) :=
  split_block_lot_block_lengths "12345678" "1234" "5678" rfl
